import Mathlib

/-!
Verification development for the SenSai voice-session code base.

The definitions below are shallow embeddings of the TypeScript source:

* `jsTrim`, `jsToLower`, `jsIncludes` model the JavaScript string
  primitives `String.prototype.trim`, `toLowerCase` and `includes`
  (ASCII case folding, literal substring containment).
* `dgTranscriptStep` embeds the `LiveTranscriptionEvents.Transcript`
  handler of `useDeepgramVoice` (src/unnamed/part_000 lines 113-125,
  identical in src/unnamed/part_001 lines 117-129).
* `liveTranscriptStep` embeds the `Transcript` handler of
  `useLiveTranscription` (src/unnamed/part_004 lines 454-460).
* `cleanupVoice`, `phase1StartVoice`, `deviceOkStep`, `voiceEvtStep`
  embed the session lifecycle of `useDeepgramVoice`
  (src/unnamed/part_000 lines 47-145).
* `startListeningOk`, `lTick`, `stopListening` embed the
  `useLiveTranscription` lifecycle (src/unnamed/part_004 lines 441-502).
* `handleTranscriptUpdate` embeds the command router of
  `DeepgramVoiceInput` (src/unnamed/part_000 lines 223-258).
* `uiElementMap`, `interactionKeywords`, `parseForUIElements`,
  `applyHOp` embed the `VapiWidget` highlight correlator
  (src/unnamed/part_004 lines 12-214).
-/

/-- JavaScript `String.prototype.trim` on the character list: drop
whitespace from both ends. -/
def jsTrimList (l : List Char) : List Char :=
  ((l.dropWhile Char.isWhitespace).reverse.dropWhile Char.isWhitespace).reverse

/-- JavaScript `String.prototype.trim`. -/
def jsTrim (s : String) : String :=
  ⟨jsTrimList s.data⟩

/-- JavaScript `String.prototype.toLowerCase` (ASCII range). -/
def jsToLower (s : String) : String :=
  ⟨s.data.map Char.toLower⟩

/-- Literal substring containment on character lists: `needle` occurs
contiguously inside `hay`.  This is the semantics of JavaScript
`hay.includes(needle)`. -/
def containsSub (hay needle : List Char) : Bool :=
  match hay with
  | [] => needle.isEmpty
  | _ :: t => needle.isPrefixOf hay || containsSub t needle

/-- JavaScript `s.includes(sub)`. -/
def jsIncludes (s sub : String) : Bool :=
  containsSub s.data sub.data

/-- JavaScript truthiness of a string: nonempty. -/
def jsTruthy (s : String) : Bool :=
  !s.data.isEmpty

/-- Append a word to the committed buffer with the single-separating-space
rule used by every variant of the source:
`buffer += (buffer ? " " : "") + txt`. -/
def jsAppendWord (b t : String) : String :=
  b ++ (if jsTruthy b then " " else "") ++ t

/-- One recognition alternative of a Deepgram `Transcript` payload
(`data.channel.alternatives[i]`). -/
structure DgAlternative where
  transcript : String
  deriving DecidableEq

/-- The `channel` field of a Deepgram `Transcript` payload. -/
structure DgChannel where
  alternatives : List DgAlternative
  deriving DecidableEq

/-- A Deepgram `Transcript` event payload (`DeepgramTranscriptData` in
src/unnamed/part_000 lines 8-15).  `is_final = false` is a partial
(interim) result, `is_final = true` a final result. -/
structure DgData where
  channel : DgChannel
  is_final : Bool
  deriving DecidableEq

/-- Convenience constructor: a payload with a single alternative. -/
def mkDgData (t : String) (fin : Bool) : DgData :=
  ⟨⟨[⟨t⟩]⟩, fin⟩

/-- Reconciler state of `useDeepgramVoice`: `buffer` is the committed
transcript (`bufferRef.current`), `live` is the displayed live view
(`liveTranscript`). -/
structure RState where
  buffer : String
  live : String
  deriving DecidableEq

/-- The `Transcript` handler of `useDeepgramVoice`
(src/unnamed/part_000 lines 113-125):

```
const txt = data.channel.alternatives[0]?.transcript.trim();
if (txt && data.is_final) {
  bufferRef.current += (bufferRef.current ? " " : "") + txt;
  setLiveTranscript(bufferRef.current);
  onTranscriptUpdate(bufferRef.current);
} else if (txt) {
  setLiveTranscript(bufferRef.current + " " + txt);
}
```

The optional chain `alternatives[0]?.` short-circuits the whole member
chain to `undefined` when the array is empty, so the handler is total;
that is modelled by matching on `head?`. -/
def dgTranscriptStep (d : DgData) (s : RState) : RState :=
  match d.channel.alternatives.head? with
  | none => s
  | some alt =>
    let txt := jsTrim alt.transcript
    if jsTruthy txt && d.is_final then
      let b := jsAppendWord s.buffer txt
      { buffer := b, live := b }
    else if jsTruthy txt then
      { s with live := s.buffer ++ " " ++ txt }
    else s

/-- Fold the `useDeepgramVoice` handler over a sequence of `Transcript`
events. -/
def reconFold (ds : List DgData) (s : RState) : RState :=
  ds.foldl (fun st d => dgTranscriptStep d st) s

/-- The `Transcript` handler of `useLiveTranscription`
(src/unnamed/part_004 lines 454-460):

```
const transcriptText = data.channel.alternatives[0].transcript;
if (transcriptText) {
  bufferRef.current += (bufferRef.current ? " " : "") + transcriptText;
  setTranscript(bufferRef.current);
}
```

There is no optional chain here: on an empty `alternatives` array the
member access throws a `TypeError`, modelled by `Except.error`.  The
`is_final` flag is never consulted. -/
def liveTranscriptStep (d : DgData) (buf : String) : Except Unit String :=
  match d.channel.alternatives.head? with
  | none => Except.error ()
  | some alt =>
    if jsTruthy alt.transcript then
      Except.ok (jsAppendWord buf alt.transcript)
    else
      Except.ok buf

/-- Environment flags for the `useDeepgramVoice` teardown: whether the
two release calls (`recorderRef.current?.stop()` and
`dgConnRef.current?.finish()`) throw when invoked. -/
structure DgEnv where
  recorderStopThrows : Bool
  connFinishThrows : Bool
  deriving DecidableEq

/-- The benign environment: no release call throws. -/
def benignDgEnv : DgEnv := ⟨false, false⟩

/-- Lifecycle state of one `useDeepgramVoice` consumer.

* `recorder` / `conn` : whether `recorderRef.current` / `dgConnRef.current`
  hold an object (versus `null`);
* `isVoiceActive`, `buffer`, `live` : the React state and the committed
  buffer (`bufferRef.current`);
* `captureActive` : the MediaRecorder of the current invocation is
  recording (set by `recorder.start(250)`);
* `connLive` : the underlying Deepgram connection has not been finished;
* `chunksSent` : how many audio chunks have been sent to the stream. -/
structure VoiceState where
  recorder : Bool
  conn : Bool
  isVoiceActive : Bool
  buffer : String
  live : String
  captureActive : Bool
  connLive : Bool
  chunksSent : Nat
  deriving DecidableEq

/-- The all-idle initial state. -/
def initVoice : VoiceState :=
  { recorder := false, conn := false, isVoiceActive := false,
    buffer := "", live := "", captureActive := false,
    connLive := false, chunksSent := 0 }

/-- Teardown `cleanupVoice` (src/unnamed/part_000 lines 47-60):

```
try { recorderRef.current?.stop(); } catch {}
try { dgConnRef.current?.finish(); } catch {}
recorderRef.current = null;
dgConnRef.current = null;
setIsVoiceActive(false);
setLiveTranscript("");
bufferRef.current = "";
```

Each release call is individually wrapped in `try/catch`, so a throwing
step (modelled by the `DgEnv` flags) is swallowed and every later step
still runs. -/
def cleanupVoice (env : DgEnv) (s : VoiceState) : VoiceState :=
  { s with
    captureActive := if s.recorder && !env.recorderStopThrows then false else s.captureActive,
    connLive := if s.conn && !env.connFinishThrows then false else s.connLive,
    recorder := false, conn := false, isVoiceActive := false,
    live := "", buffer := "" }

/-- The synchronous head of `startVoice` (src/unnamed/part_000
lines 62-67), run before the first `await`:

```
cleanupVoice();
setIsVoiceActive(true);
setLiveTranscript("");
bufferRef.current = "";
```

Everything after this point is a continuation resumed when the token
fetch resolves; the code performs no check that the session is still
current when that happens. -/
def phase1StartVoice (env : DgEnv) (s : VoiceState) : VoiceState :=
  let t := cleanupVoice env s
  { t with isVoiceActive := true, live := "", buffer := "" }

/-- The token-fetch failure continuation (src/unnamed/part_000
lines 76-80): report the error and clear the active flag. -/
def tokenFailStep (s : VoiceState) : VoiceState :=
  { s with isVoiceActive := false }

/-- The continuation run after both the token fetch and `getUserMedia`
resolved successfully (src/unnamed/part_000 lines 95-131): create the
MediaRecorder and the Deepgram connection, store them in the refs and
register the `Open`, `Transcript` and `dataavailable` handlers.  Note
that nothing here re-checks whether the session was torn down while the
awaits were pending, and `setIsVoiceActive(true)` is not called again. -/
def deviceOkStep (s : VoiceState) : VoiceState :=
  { s with recorder := true, conn := true, connLive := true }

/-- The `getUserMedia` failure continuation (src/unnamed/part_000
lines 89-93). -/
def deviceFailStep (s : VoiceState) : VoiceState :=
  { s with isVoiceActive := false }

/-- Events observed by an open `useDeepgramVoice` session: the stream
`Open` signal, a MediaRecorder `dataavailable` tick, or a `Transcript`
payload. -/
inductive DgEvt where
  | openEvt : DgEvt
  | tick : DgEvt
  | msg : DgData → DgEvt
  deriving DecidableEq

/-- Event step for `useDeepgramVoice`:

* `Open` handler (src/unnamed/part_000 lines 108-110) starts the
  recorder — capture begins here and nowhere else;
* a `dataavailable` tick (lines 128-131) sends one chunk over the
  connection, and fires only while the recorder is capturing;
* a `Transcript` payload runs the reconciler handler. -/
def voiceEvtStep (s : VoiceState) (e : DgEvt) : VoiceState :=
  match e with
  | .openEvt => { s with captureActive := true }
  | .tick =>
    if s.captureActive then { s with chunksSent := s.chunksSent + 1 } else s
  | .msg d =>
    let r := dgTranscriptStep d ⟨s.buffer, s.live⟩
    { s with buffer := r.buffer, live := r.live }

/-- Fold a list of events over a `useDeepgramVoice` session state. -/
def voiceEvtFold (s : VoiceState) (es : List DgEvt) : VoiceState :=
  es.foldl voiceEvtStep s

/-- Environment flags for `stopListening`: whether
`mediaRecorderRef.current.stop()` and `deepgramRef.current.finish()`
throw. -/
structure LEnv where
  recorderStopThrows : Bool
  finishThrows : Bool
  deriving DecidableEq

/-- The benign environment for `stopListening`. -/
def benignLEnv : LEnv := ⟨false, false⟩

/-- State of one `useLiveTranscription` consumer
(src/unnamed/part_004 lines 417-511).

* `transcript` mirrors the React `transcript` state, `buffer` mirrors
  `bufferRef.current` (the handler keeps them equal);
* `conn` / `stream` : the `deepgramRef` / `mediaStreamRef` refs are set;
* `recorderActive` : the MediaRecorder state is not `"inactive"`;
* `micLive` / `connLive` : the microphone tracks / Deepgram connection
  have not been stopped / finished;
* `chunksSent`, `openSeen` : observables for the capture ordering. -/
structure LState where
  isListening : Bool
  transcript : String
  buffer : String
  conn : Bool
  stream : Bool
  recorderActive : Bool
  micLive : Bool
  connLive : Bool
  chunksSent : Nat
  openSeen : Bool
  deriving DecidableEq

/-- The all-idle initial `useLiveTranscription` state. -/
def initLState : LState :=
  { isListening := false, transcript := "", buffer := "",
    conn := false, stream := false, recorderActive := false,
    micLive := false, connLive := false, chunksSent := 0,
    openSeen := false }

/-- Successful `startListening` run, with the token fetch and `getUserMedia` both
succeeding (src/unnamed/part_004 lines 441-481): the Deepgram live
connection is created and stored, the microphone stream is acquired,
and `mediaRecorder.start(250)` is called immediately — the code
registers no `Open` handler and does not wait for any `Open` signal
before starting capture. -/
def startListeningOk (s : LState) : LState :=
  { s with
    conn := true, connLive := true, stream := true,
    micLive := true, recorderActive := true, isListening := true }

/-- A `dataavailable` tick of `useLiveTranscription`
(src/unnamed/part_004 lines 469-473): sends a chunk whenever the
recorder is producing data and `deepgramRef.current` is set, with no
regard to whether the connection has opened. -/
def lTick (s : LState) : LState :=
  if s.recorderActive && s.conn then { s with chunksSent := s.chunksSent + 1 } else s

/- Teardown `stopListening` (src/unnamed/part_004 lines 484-502):

```
if (mediaRecorderRef.current && mediaRecorderRef.current.state !== "inactive") {
  mediaRecorderRef.current.stop();
}
if (mediaStreamRef.current) {
  mediaStreamRef.current.getTracks().forEach((track) => track.stop());
}
if (deepgramRef.current) {
  deepgramRef.current.finish();
}
setIsListening(false);
```

The steps are guarded by null/state checks but are NOT wrapped in
`try/catch`: a throwing call aborts every later step (modelled with
`Except`).  Track `stop()` never throws.  The transcript buffers are
not touched. -/

/-- First `stopListening` step: stop the recorder if it is active; may
throw. -/
def stopRecorderStep (env : LEnv) (s : LState) : Except Unit LState :=
  if s.recorderActive then
    (if env.recorderStopThrows then Except.error () else
       Except.ok { s with recorderActive := false })
  else Except.ok s

def finishConnStep (env : LEnv) (s : LState) : Except Unit LState :=
  if s.conn then
    (if env.finishThrows then Except.error () else
       Except.ok { s with connLive := false })
  else Except.ok s

/-- Teardown `stopListening` of `useLiveTranscription`: stop the
recorder, stop the stream tracks, finish the connection, clear the
listening flag.  The steps are guarded but not exception-wrapped, and
the transcript buffers are not reset (see the block comment above). -/
def stopListening (env : LEnv) (s : LState) : Except Unit LState :=
  match stopRecorderStep env s with
  | .error e => .error e
  | .ok s1 =>
    let s2 := if s1.stream then { s1 with micLive := false } else s1
    match finishConnStep env s2 with
    | .error e => .error e
    | .ok s3 => .ok { s3 with isListening := false }

/-- The actions the `DeepgramVoiceInput` command router can invoke
(src/unnamed/part_000 lines 239-258). -/
inductive RouterAction where
  | createCourse : RouterAction
  | joinCourse : RouterAction
  | submitTask : RouterAction
  | fallback : RouterAction
  deriving DecidableEq

/-- Trigger phrase for the create-course action. -/
def createCoursePhrase : String := "create course"

/-- Trigger phrase for the join-course action. -/
def joinCoursePhrase : String := "join course"

/-- Trigger phrase for the submit-task action. -/
def submitTaskPhrase : String := "submit task"

/-- `handleTranscriptUpdate` (src/unnamed/part_000 lines 224-237):
lowercase the full committed transcript, then test the three trigger
phrases in declared order with first-match-wins; no match invokes the
fallback action. -/
def handleTranscriptUpdate (transcript : String) : RouterAction :=
  let n := jsToLower transcript
  if jsIncludes n createCoursePhrase then .createCourse
  else if jsIncludes n joinCoursePhrase then .joinCourse
  else if jsIncludes n submitTaskPhrase then .submitTask
  else .fallback

/-- The router's binding table, in the order the source declares the
branches. -/
def commandBindings : List (String × RouterAction) :=
  [(createCoursePhrase, .createCourse),
   (joinCoursePhrase, .joinCourse),
   (submitTaskPhrase, .submitTask)]

/-- Modelled from the spec (section 4.5): a generic first-match-wins
router, scanning a binding table in its fixed declared order over the
lowercased transcript, invoking the designated fallback when no trigger
phrase is contained.  Used to compare the code router against the
spec's wording. -/
def routeSpec (transcript : String) : RouterAction :=
  match commandBindings.find? (fun p => jsIncludes (jsToLower transcript) p.1) with
  | some p => p.2
  | none => .fallback

/-- The `UI_ELEMENT_MAP` of `VapiWidget` (src/unnamed/part_004
lines 12-56), in declared order; `Object.entries` iterates string keys
in insertion order. -/
def uiElementMap : List (String × String) :=
  [("create account", "#create-account-btn"),
   ("sign up", "#signup-button"),
   ("signup", "#signup-button"),
   ("email", "#email-input"),
   ("email field", "#email-input"),
   ("password", "#password-input"),
   ("password field", "#password-input"),
   ("confirm password", "#confirm-password-input"),
   ("mark complete", "#mark-complete-btn"),
   ("next task", "#next-task-btn"),
   ("next", "#next-task-btn"),
   ("previous task", "#prev-task-btn"),
   ("previous", "#prev-task-btn"),
   ("the quiz", "#quiz-container"),
   ("quiz", "#quiz-container"),
   ("create course", "#create-course-btn"),
   ("join course", "#join-course-btn"),
   ("course name", "#course-name-input"),
   ("course code", "#course-code-input"),
   ("enroll", "#enroll-btn"),
   ("enrollment", "#enroll-btn"),
   ("your courses", "#course-grid"),
   ("list of courses", "#course-grid"),
   ("course list", "#course-grid"),
   ("courses", "#course-grid"),
   ("submit", "#submit-btn"),
   ("submit task", "#submit-task-btn"),
   ("upload", "#upload-btn"),
   ("storage queue", ".storage-queue-icon"),
   ("storage-queue", ".storage-queue-icon"),
   ("offline submit", "#offline-submit-btn"),
   ("file upload", "#file-upload-input"),
   ("dashboard", "#dashboard-link"),
   ("profile", "#profile-link"),
   ("settings", "#settings-link")]

/-- The `INTERACTION_KEYWORDS` list of `VapiWidget`
(src/unnamed/part_004 lines 59-62). -/
def interactionKeywords : List String :=
  ["click", "tap", "press", "select", "choose", "find", "look for",
   "go to", "navigate", "open", "access", "enter", "fill", "type"]

/-- `parseForUIElements` (src/unnamed/part_004 lines 76-94): lowercase
the utterance; if it contains no interaction keyword return `null`;
else return the first `(elementName, selector)` entry of
`UI_ELEMENT_MAP` whose name is contained in the utterance. -/
def parseForUIElements (text : String) : Option (String × String) :=
  let lower := jsToLower text
  if interactionKeywords.any (fun k => jsIncludes lower k) then
    uiElementMap.find? (fun p => jsIncludes lower (jsToLower p.1))
  else
    none

/-- The fixed auto-clear duration of `highlightElement`
(src/unnamed/part_004 line 122): 5000 milliseconds. -/
def highlightDurationMs : Nat := 5000

/-- The `message` handler's highlight decision (src/unnamed/part_004
lines 171-191): for an assistant transcript message whose text parses
to a UI element, invoke `highlightElement` once with that selector, with
the fixed auto-clear duration; otherwise do nothing. -/
def assistantHighlights (role : String) (text : String) : List (String × Nat) :=
  if role = "assistant" then
    match parseForUIElements text with
    | some p => [(p.2, highlightDurationMs)]
    | none => []
  else []

/-- Operations on the page-level highlight state of `VapiWidget`. -/
inductive HOp where
  | highlight : String → HOp
  | fire : String → HOp
  | clearHL : HOp
  deriving DecidableEq

/-- Highlight state of `VapiWidget`:

* `dom` : the selectors of elements present in the document (fixed);
* `classes` : the selectors of elements currently bearing the
  `vapi-highlight` class;
* `cur` : the React `currentHighlight` state;
* `pending` : selectors with an auto-clear timer still scheduled. -/
structure HState where
  dom : List String
  classes : List String
  cur : Option String
  pending : List String
  deriving DecidableEq

/-- One step of the highlight state machine.

* `highlight sel` is `highlightElement` (src/unnamed/part_004
  lines 97-131): if the element exists, first remove the
  `vapi-highlight` class from every element bearing it, then add it to
  the target, record it in `currentHighlight`, and schedule a timer;
  if the element is missing, log and do nothing.
* `fire sel` is the body of that timer (lines 119-122): remove the
  class from the captured element and set `currentHighlight` to null —
  unconditionally, even if the highlight was superseded meanwhile.
* `clearHL` is `clearHighlight` (lines 134-142), run both by the
  `call-end` handler (line 158) and by `endCall` (line 211): remove the
  class from the element `currentHighlight` points to, if any. -/
def applyHOp (s : HState) (op : HOp) : HState :=
  match op with
  | .highlight sel =>
    if sel ∈ s.dom then
      { s with classes := [sel], cur := some sel, pending := s.pending ++ [sel] }
    else s
  | .fire sel =>
    if sel ∈ s.pending then
      { s with classes := s.classes.erase sel, cur := none,
               pending := s.pending.erase sel }
    else s
  | .clearHL =>
    match s.cur with
    | some c => { s with classes := s.classes.erase c, cur := none }
    | none => s

/-- Run a sequence of highlight operations from the pristine page state. -/
def runHOps (dom : List String) (ops : List HOp) : HState :=
  ops.foldl applyHOp { dom := dom, classes := [], cur := none, pending := [] }



/-- The assistant utterance of the highlight scenario in the spec. -/
def dashboardUtterance : String := "let's open the dashboard now"

/-- A `useLiveTranscription` state mid-session with a nonempty
committed transcript, used to exercise `stopListening`. -/
def cexLState : LState :=
  { initLState with
    isListening := true, transcript := "hello world", buffer := "hello world",
    conn := true, stream := true, recorderActive := true,
    micLive := true, connLive := true }

/-- The stop-during-pending-acquisition interleaving of `startVoice`:
the synchronous head runs, the user calls `stopVoice` (that is,
`cleanupVoice`) while the token fetch is pending, then the fetch and
`getUserMedia` resolve successfully and the stream signals `Open`.  The
source continuations contain no check that the session is still
current, so they run in full. -/
def staleResolutionRun (s : VoiceState) : VoiceState :=
  voiceEvtStep (deviceOkStep (cleanupVoice benignDgEnv (phase1StartVoice benignDgEnv s)))
    DgEvt.openEvt

/-- Invariant of the highlight state machine: at most one element bears
the highlight class, and the tracked `currentHighlight`, when set,
points at exactly that element. -/
def HInv (s : HState) : Prop :=
  s.classes.length ≤ 1 ∧ ∀ c, s.cur = some c → s.classes = [c]

/-! Helper lemmas. -/

theorem data_append (a b : String) : (a ++ b).data = a.data ++ b.data := rfl

theorem jsAppendWord_grows (b t : String) : b.data <+: (jsAppendWord b t).data := by
  unfold jsAppendWord
  rw [data_append, data_append]
  exact (List.prefix_append b.data _).trans (by rw [List.append_assoc])

theorem dgTranscriptStep_buffer_grows (d : DgData) (s : RState) :
    s.buffer.data <+: (dgTranscriptStep d s).buffer.data := by
  unfold dgTranscriptStep
  cases d.channel.alternatives.head? with
  | none => exact List.prefix_refl _
  | some alt =>
    dsimp only
    split
    · exact jsAppendWord_grows _ _
    · split
      · exact List.prefix_refl _
      · exact List.prefix_refl _

theorem reconFold_buffer_grows (ds : List DgData) (s : RState) :
    s.buffer.data <+: (reconFold ds s).buffer.data := by
  induction ds generalizing s with
  | nil => exact List.prefix_refl _
  | cons d ds ih =>
    exact (dgTranscriptStep_buffer_grows d s).trans (ih (dgTranscriptStep d s))

theorem dgTranscriptStep_interim (d : DgData) (s : RState) (h : d.is_final = false) :
    (dgTranscriptStep d s).buffer = s.buffer := by
  unfold dgTranscriptStep
  cases d.channel.alternatives.head? with
  | none => rfl
  | some alt =>
    simp only [h, Bool.and_false, Bool.false_eq_true, if_false]
    split
    · rfl
    · rfl

/-- C1 (corrected).  In the `useDeepgramVoice` reconciler the committed
buffer only ever grows by appending (it is a prefix of every later
value, hence monotonically non-decreasing in length) and a partial
(`is_final = false`) event never changes it.  In the
`useLiveTranscription` handler the committed buffer is still
append-only, but that handler ignores `is_final`, so there a partial
event with nonempty text does append to the committed transcript
(see `live_handler_commits_interim_cex`). -/
theorem committed_append_only_amended :
    (∀ (ds : List DgData) (s : RState), s.buffer.data <+: (reconFold ds s).buffer.data) ∧
    (∀ (d : DgData) (s : RState), d.is_final = false →
      (dgTranscriptStep d s).buffer = s.buffer) ∧
    (∀ (d : DgData) (b : String),
      liveTranscriptStep d b = Except.error () ∨
      ∃ b', liveTranscriptStep d b = Except.ok b' ∧ b.data <+: b'.data) := by
  refine ⟨reconFold_buffer_grows, dgTranscriptStep_interim, ?_⟩
  intro d b
  unfold liveTranscriptStep
  cases d.channel.alternatives.head? with
  | none => exact Or.inl rfl
  | some alt =>
    right
    dsimp only
    split
    · exact ⟨_, rfl, jsAppendWord_grows _ _⟩
    · exact ⟨_, rfl, List.prefix_refl _⟩

/-- Witness for `committed_append_only_amended` at concrete inputs. -/
theorem committed_append_only_amended_witness :
    (dgTranscriptStep (mkDgData ("creat") false) ⟨"create", "create"⟩).buffer = "create" :=
  committed_append_only_amended.2.1 (mkDgData ("creat") false) ⟨"create", "create"⟩ rfl

/-- C1 counterexample: the `useLiveTranscription` transcript handler,
given a partial (`is_final = false`) event with nonempty text, changes
the committed buffer from `""` to `"hi"` — refuting the claim that
processing a PartialText event never changes the committed transcript. -/
theorem live_handler_commits_interim_cex :
    liveTranscriptStep (mkDgData ("hi") false) ("") = Except.ok ("hi") ∧
    ("hi" : String) ≠ ("" : String) :=
  ⟨rfl, by decide⟩

/-- C5 (corrected).  On a nonempty (after trimming) partial event the
`useDeepgramVoice` handler always sets the live view to
`committed ++ " " ++ t` — including the separating space when the
committed buffer is empty, contrary to the claim's no-separator rule.
In the spec's scenario the live view after the second partial is
therefore `" create cour"` (with a leading space), and after the final
event the committed buffer is `"create course"` with the live view
equal to it (the preview is gone). -/
theorem preview_separator_amended :
    (∀ (s : RState) (t : String), jsTruthy (jsTrim t) = true →
      dgTranscriptStep (mkDgData t false) s
        = { s with live := s.buffer ++ " " ++ jsTrim t }) ∧
    ((dgTranscriptStep (mkDgData ("create cour") false)
        (dgTranscriptStep (mkDgData ("creat") false) ⟨"", ""⟩)).live = " create cour" ∧
      (dgTranscriptStep (mkDgData ("create course") true)
        (dgTranscriptStep (mkDgData ("create cour") false)
          (dgTranscriptStep (mkDgData ("creat") false) ⟨"", ""⟩))).buffer = "create course" ∧
      (dgTranscriptStep (mkDgData ("create course") true)
        (dgTranscriptStep (mkDgData ("create cour") false)
          (dgTranscriptStep (mkDgData ("creat") false) ⟨"", ""⟩))).live = "create course") := by
  constructor
  · intro s t h
    unfold dgTranscriptStep mkDgData
    simp only [List.head?, Bool.and_false, Bool.false_eq_true, if_false, h, if_true]
  · exact ⟨by decide, by decide, by decide⟩

/-- Witness for `preview_separator_amended` at a concrete input. -/
theorem preview_separator_amended_witness :
    dgTranscriptStep (mkDgData (" hi ") false) ⟨"a", "a"⟩ = ⟨"a", "a hi"⟩ :=
  (preview_separator_amended.1 ⟨"a", "a"⟩ (" hi ") (by decide)).trans (by decide)

/-- C5 counterexample: from an empty session, the partial events
`"creat"` then `"create cour"` leave the live preview `" create cour"`,
not the claimed `"create cour"` — the handler inserts the separating
space even though the committed transcript is empty. -/
theorem preview_leading_space_cex :
    (dgTranscriptStep (mkDgData ("create cour") false)
      (dgTranscriptStep (mkDgData ("creat") false) ⟨"", ""⟩)).live = " create cour" ∧
    (dgTranscriptStep (mkDgData ("create cour") false)
      (dgTranscriptStep (mkDgData ("creat") false) ⟨"", ""⟩)).live ≠ "create cour" := by
  decide

theorem dgStep_ignored_of_trim_empty (d : DgData) (s : RState) (alt : DgAlternative)
    (hh : d.channel.alternatives.head? = some alt)
    (h : jsTruthy (jsTrim alt.transcript) = false) :
    dgTranscriptStep d s = s := by
  unfold dgTranscriptStep
  rw [hh]
  simp only [h, Bool.false_and, Bool.false_eq_true, if_false]

theorem dgStep_no_alternative (d : DgData) (s : RState)
    (h : d.channel.alternatives = []) : dgTranscriptStep d s = s := by
  unfold dgTranscriptStep
  rw [h]
  rfl

/-- C6 (corrected).  A recognition event whose text is empty after
trimming — final or partial — is ignored entirely by the
`useDeepgramVoice` handler: the committed buffer is unchanged (as the
claim says) but the stale partial preview is NOT discarded; the live
view keeps showing it (see `empty_final_keeps_stale_preview_cex`). -/
theorem empty_final_ignored_amended :
    ∀ (d : DgData) (s : RState) (alt : DgAlternative),
      d.channel.alternatives.head? = some alt →
      jsTruthy (jsTrim alt.transcript) = false →
      dgTranscriptStep d s = s :=
  dgStep_ignored_of_trim_empty

/-- Witness for `empty_final_ignored_amended` at a concrete input. -/
theorem empty_final_ignored_amended_witness :
    dgTranscriptStep (mkDgData ("   ") true) ⟨"", " hello"⟩ = ⟨"", " hello"⟩ :=
  empty_final_ignored_amended (mkDgData ("   ") true) ⟨"", " hello"⟩ ⟨"   "⟩ rfl (by decide)

/-- C6 counterexample: after the partial `"hello"` the live view is
`" hello"`; a following FinalText with empty text leaves it `" hello"`
— the stale interim text is still displayed, the preview is not
discarded (it neither becomes empty nor collapses to the committed
buffer, which stays `""`). -/
theorem empty_final_keeps_stale_preview_cex :
    (dgTranscriptStep (mkDgData ("") true)
      (dgTranscriptStep (mkDgData ("hello") false) ⟨"", ""⟩)).live = " hello" ∧
    (dgTranscriptStep (mkDgData ("") true)
      (dgTranscriptStep (mkDgData ("hello") false) ⟨"", ""⟩)).live ≠ "" ∧
    (dgTranscriptStep (mkDgData ("") true)
      (dgTranscriptStep (mkDgData ("hello") false) ⟨"", ""⟩)).buffer = "" := by
  decide

/-- C10 (confirmed).  The `useDeepgramVoice` transcript handler is a
total function of the payload — the source's optional chain
`alternatives[0]?.` short-circuits, so even an empty `alternatives`
array cannot raise — and a payload with no alternative, or whose first
alternative trims to whitespace-only text, changes neither the
committed buffer nor the live transcript. -/
theorem dg_handler_safe :
    ∀ (d : DgData) (s : RState),
      (d.channel.alternatives = [] → dgTranscriptStep d s = s) ∧
      (∀ alt rest, d.channel.alternatives = alt :: rest →
        jsTruthy (jsTrim alt.transcript) = false → dgTranscriptStep d s = s) := by
  intro d s
  constructor
  · exact dgStep_no_alternative d s
  · intro alt rest h htrim
    apply dgStep_ignored_of_trim_empty d s alt _ htrim
    rw [h]
    rfl

/-- Witness for `dg_handler_safe` at concrete payloads: an empty
`alternatives` array and a whitespace-only alternative. -/
theorem dg_handler_safe_witness :
    dgTranscriptStep ⟨⟨[]⟩, true⟩ ⟨"a", "b"⟩ = ⟨"a", "b"⟩ ∧
    dgTranscriptStep (mkDgData ("  ") false) ⟨"a", "b"⟩ = ⟨"a", "b"⟩ :=
  ⟨(dg_handler_safe ⟨⟨[]⟩, true⟩ ⟨"a", "b"⟩).1 rfl,
   (dg_handler_safe (mkDgData ("  ") false) ⟨"a", "b"⟩).2 ⟨"  "⟩ [] rfl (by decide)⟩

theorem stopListening_benign (s : LState) :
    stopListening benignLEnv s
      = Except.ok { s with
          recorderActive := false,
          micLive := s.micLive && !s.stream,
          connLive := s.connLive && !s.conn,
          isListening := false } := by
  cases hr : s.recorderActive <;> cases hst : s.stream <;> cases hc : s.conn <;>
    simp [stopListening, stopRecorderStep, finishConnStep, benignLEnv, hr, hst, hc]

/-- C2 (corrected).  The `useDeepgramVoice` teardown `cleanupVoice` has
every claimed property: it is total (each release call is individually
try/catch-wrapped, so a throwing recorder stop does not prevent the
connection from being finished), idempotent, safe from any state, and
it resets the committed buffer and the live transcript to empty.  The
`useLiveTranscription` teardown `stopListening` is safe and idempotent
when no release call throws, but its steps are only guarded by
null/state checks — they are not exception-wrapped — and it does not
reset the transcript buffers (see `stopListening_not_reset_cex`). -/
theorem teardown_amended :
    (∀ (env : DgEnv) (s : VoiceState),
      (cleanupVoice env s).isVoiceActive = false ∧
      (cleanupVoice env s).recorder = false ∧
      (cleanupVoice env s).conn = false ∧
      (cleanupVoice env s).buffer = "" ∧
      (cleanupVoice env s).live = "" ∧
      cleanupVoice env (cleanupVoice env s) = cleanupVoice env s) ∧
    (∀ (env : DgEnv) (s : VoiceState), s.conn = true → env.connFinishThrows = false →
      (cleanupVoice env s).connLive = false) ∧
    (∀ s : LState,
      ∃ s', stopListening benignLEnv s = Except.ok s' ∧
        s'.isListening = false ∧ s'.transcript = s.transcript ∧ s'.buffer = s.buffer ∧
        stopListening benignLEnv s' = Except.ok s') := by
  refine ⟨?_, ?_, ?_⟩
  · intro env s
    refine ⟨rfl, rfl, rfl, rfl, rfl, ?_⟩
    simp [cleanupVoice]
  · intro env s hc he
    simp [cleanupVoice, hc, he]
  · intro s
    refine ⟨_, stopListening_benign s, rfl, rfl, rfl, ?_⟩
    rw [stopListening_benign]
    simp [Bool.and_assoc]

/-- Witness for `teardown_amended`: with a live connection and a
throwing recorder stop, `cleanupVoice` still finishes the connection. -/
theorem teardown_amended_witness :
    (cleanupVoice ⟨true, false⟩
      { initVoice with conn := true, connLive := true }).connLive = false :=
  teardown_amended.2.1 ⟨true, false⟩
    { initVoice with conn := true, connLive := true } rfl rfl

/-- C2 counterexample: from a mid-session state with committed
transcript `"hello world"`, a benign `stopListening` leaves the
transcript untouched (the claim says teardown resets it to empty), and
with a throwing recorder stop the whole `stopListening` call throws —
the release steps are not individually wrapped. -/
theorem stopListening_not_reset_cex :
    (stopListening benignLEnv cexLState).toOption.map LState.transcript
      = some ("hello world") ∧
    ("hello world" : String) ≠ ("" : String) ∧
    stopListening ⟨true, false⟩ cexLState = Except.error () :=
  ⟨by decide, by decide, rfl⟩

/-- C3 (corrected).  The `startVoice` continuations perform no check
that the session is still current: calling `stopVoice`/`cleanupVoice`
while the token fetch is pending does NOT cause the late resolution to
be discarded.  When the pending steps resolve they re-populate the
recorder and connection refs, open a fresh live connection and — on the
stream's `Open` signal — start audio capture, resurrecting the
torn-down session.  Only the `isVoiceActive` flag stays false, because
it is set before the awaits and never set again after them. -/
theorem stale_resolution_proceeds_amended :
    ∀ s : VoiceState,
      (staleResolutionRun s).captureActive = true ∧
      (staleResolutionRun s).conn = true ∧
      (staleResolutionRun s).connLive = true ∧
      (staleResolutionRun s).recorder = true ∧
      (staleResolutionRun s).isVoiceActive = false := by
  intro s
  refine ⟨rfl, rfl, rfl, rfl, rfl⟩

/-- C3 counterexample: starting from the idle state, tearing the
session down while the token fetch is pending and then letting the
acquisition continuations resolve leaves capture running and a live
connection open — the claim that a torn-down session is never
resurrected (capture never restarted, stream never reopened) is false. -/
theorem stale_resolution_resurrects_cex :
    (staleResolutionRun initVoice).captureActive = true ∧
    (staleResolutionRun initVoice).conn = true ∧
    (staleResolutionRun initVoice).connLive = true := by
  decide

theorem voiceEvtFold_no_open (es : List DgEvt) :
    ∀ s : VoiceState, DgEvt.openEvt ∉ es → s.captureActive = false →
      (voiceEvtFold s es).captureActive = false ∧
      (voiceEvtFold s es).chunksSent = s.chunksSent := by
  induction es with
  | nil => intro s _ hc; exact ⟨hc, rfl⟩
  | cons e es ih =>
    intro s hmem hc
    have he : e ≠ DgEvt.openEvt := fun h => hmem (h ▸ List.mem_cons_self e es)
    have hmem' : DgEvt.openEvt ∉ es := fun h => hmem (List.mem_cons_of_mem e h)
    cases e with
    | openEvt => exact absurd rfl he
    | tick =>
      have hstep : voiceEvtStep s DgEvt.tick = s := by
        simp [voiceEvtStep, hc]
      unfold voiceEvtFold List.foldl
      rw [hstep]
      exact ih s hmem' hc
    | msg d =>
      have h1 : (voiceEvtStep s (DgEvt.msg d)).captureActive = false := hc
      have h2 : (voiceEvtStep s (DgEvt.msg d)).chunksSent = s.chunksSent := rfl
      unfold voiceEvtFold List.foldl
      have := ih (voiceEvtStep s (DgEvt.msg d)) hmem' h1
      exact ⟨this.1, this.2.trans h2⟩

/-- C4 (corrected).  In `useDeepgramVoice` the claim holds: after the
acquisition steps the recorder is not capturing, and over any event
sequence that contains no `Open` signal capture stays off and not a
single audio chunk is sent — `recorder.start(250)` lives only in the
`Open` handler.  In `useLiveTranscription` the claim fails:
`startListening` calls `mediaRecorder.start(250)` directly after
microphone acquisition, without registering or awaiting any `Open`
signal, so chunks are produced and sent before `Open` is delivered
(see `live_capture_before_open_cex`). -/
theorem capture_gating_amended :
    (∀ (es : List DgEvt) (s : VoiceState),
      DgEvt.openEvt ∉ es → s.captureActive = false →
      (voiceEvtFold s es).captureActive = false ∧
      (voiceEvtFold s es).chunksSent = s.chunksSent) ∧
    ((deviceOkStep (phase1StartVoice benignDgEnv initVoice)).captureActive = false ∧
      (deviceOkStep (phase1StartVoice benignDgEnv initVoice)).chunksSent = 0) ∧
    (∀ s : LState,
      (startListeningOk s).recorderActive = true ∧
      (startListeningOk s).openSeen = s.openSeen) :=
  ⟨fun es s h hc => voiceEvtFold_no_open es s h hc,
   ⟨rfl, rfl⟩,
   fun _ => ⟨rfl, rfl⟩⟩

/-- Witness for `capture_gating_amended`: a `dataavailable` tick
arriving before any `Open` signal sends no chunk. -/
theorem capture_gating_amended_witness :
    (voiceEvtFold (deviceOkStep (phase1StartVoice benignDgEnv initVoice))
      ([DgEvt.tick])).chunksSent
      = (deviceOkStep (phase1StartVoice benignDgEnv initVoice)).chunksSent :=
  (capture_gating_amended.1 ([DgEvt.tick])
    (deviceOkStep (phase1StartVoice benignDgEnv initVoice)) (by decide) rfl).2

/-- C4 counterexample: right after `startListening` (no `Open` event
ever delivered — `useLiveTranscription` registers no `Open` handler at
all) a `dataavailable` tick sends an audio chunk to the stream. -/
theorem live_capture_before_open_cex :
    (lTick (startListeningOk initLState)).chunksSent = 1 ∧
    (lTick (startListeningOk initLState)).openSeen = false := by
  decide

theorem find?_eq_some_split {α : Type} (p : α → Bool) :
    ∀ (l : List α) (a : α), l.find? p = some a →
      p a = true ∧ ∃ l₁ l₂, l = l₁ ++ a :: l₂ ∧ ∀ b ∈ l₁, p b = false := by
  intro l
  induction l with
  | nil => intro a h; simp at h
  | cons x xs ih =>
    intro a h
    cases hx : p x with
    | true =>
      rw [List.find?_cons_of_pos _ hx] at h
      obtain rfl : x = a := Option.some.inj h
      exact ⟨hx, [], xs, rfl, by simp⟩
    | false =>
      rw [List.find?_cons_of_neg _ (by simp [hx])] at h
      obtain ⟨hpa, l₁, l₂, hsplit, hall⟩ := ih a h
      refine ⟨hpa, x :: l₁, l₂, by rw [hsplit]; rfl, ?_⟩
      intro b hb
      rcases List.mem_cons.mp hb with rfl | hb
      · exact hx
      · exact hall b hb

/-- C7 (confirmed).  On each committed-transcript update the router
lowercases the full transcript and tests the trigger phrases in
declared order with first-match-wins, returning exactly one action per
update: it coincides with the generic ordered first-match router over
its binding table, a transcript containing `"create course"` (after
lowercasing) selects the create-course action and no other, and a
transcript containing no trigger phrase selects the fallback action. -/
theorem command_router_first_match :
    ∀ t : String,
      handleTranscriptUpdate t = routeSpec t ∧
      (jsIncludes (jsToLower t) createCoursePhrase = true →
        handleTranscriptUpdate t = RouterAction.createCourse) ∧
      (jsIncludes (jsToLower t) createCoursePhrase = false →
        jsIncludes (jsToLower t) joinCoursePhrase = false →
        jsIncludes (jsToLower t) submitTaskPhrase = false →
        handleTranscriptUpdate t = RouterAction.fallback) := by
  intro t
  refine ⟨?_, ?_, ?_⟩
  · cases h1 : jsIncludes (jsToLower t) createCoursePhrase <;>
      cases h2 : jsIncludes (jsToLower t) joinCoursePhrase <;>
      cases h3 : jsIncludes (jsToLower t) submitTaskPhrase <;>
      simp [handleTranscriptUpdate, routeSpec, commandBindings, h1, h2, h3,
        List.find?_cons_of_pos, List.find?_cons_of_neg]
  · intro h1
    simp [handleTranscriptUpdate, h1]
  · intro h1 h2 h3
    simp [handleTranscriptUpdate, h1, h2, h3]

/-- Witness for `command_router_first_match` on the spec's scenario
transcript and on an unmatched transcript. -/
theorem command_router_first_match_witness :
    handleTranscriptUpdate ("please create course now") = RouterAction.createCourse ∧
    handleTranscriptUpdate ("hello there") = RouterAction.fallback :=
  ⟨(command_router_first_match ("please create course now")).2.1 (by decide),
   (command_router_first_match ("hello there")).2.2 (by decide) (by decide) (by decide)⟩

/-- C9 (confirmed).  An assistant utterance containing no interaction
keyword is ignored entirely; otherwise the bound phrases are scanned in
the `UI_ELEMENT_MAP` declared order and the first phrase contained in
the lowercased utterance selects the locator (every earlier entry in
the table is not contained); and the spec's scenario utterance yields
exactly one highlight for the dashboard locator with the fixed
5000 ms auto-clear duration. -/
theorem ui_correlator_first_match :
    (∀ text : String,
      (interactionKeywords.any (fun k => jsIncludes (jsToLower text) k) = false →
        parseForUIElements text = none) ∧
      (∀ p : String × String, parseForUIElements text = some p →
        jsIncludes (jsToLower text) (jsToLower p.1) = true ∧
        ∃ l₁ l₂, uiElementMap = l₁ ++ p :: l₂ ∧
          ∀ q ∈ l₁, jsIncludes (jsToLower text) (jsToLower q.1) = false)) ∧
    (parseForUIElements dashboardUtterance = some (("dashboard"), ("#dashboard-link")) ∧
      assistantHighlights ("assistant") dashboardUtterance
        = [(("#dashboard-link"), highlightDurationMs)] ∧
      highlightDurationMs = 5000) := by
  constructor
  · intro text
    constructor
    · intro h
      simp [parseForUIElements, h]
    · intro p hp
      unfold parseForUIElements at hp
      by_cases hk : interactionKeywords.any (fun k => jsIncludes (jsToLower text) k) = true
      · rw [if_pos hk] at hp
        have := find?_eq_some_split (fun q => jsIncludes (jsToLower text) (jsToLower q.1))
          uiElementMap p hp
        exact ⟨this.1, this.2⟩
      · rw [if_neg hk] at hp
        exact absurd hp (by simp)
  · exact ⟨by decide, by decide, rfl⟩

/-- Witness for `ui_correlator_first_match`: a purely conversational
utterance parses to nothing, and in the scenario utterance the selected
phrase `"dashboard"` is indeed contained. -/
theorem ui_correlator_first_match_witness :
    parseForUIElements ("good morning to you") = none ∧
    jsIncludes (jsToLower dashboardUtterance)
      (jsToLower ((("dashboard"), ("#dashboard-link")) : String × String).1) = true :=
  ⟨(ui_correlator_first_match.1 ("good morning to you")).1 (by decide),
   ((ui_correlator_first_match.1 dashboardUtterance).2
      (("dashboard"), ("#dashboard-link")) (by decide)).1⟩

theorem applyHOp_inv (s : HState) (op : HOp) (h : HInv s) : HInv (applyHOp s op) := by
  obtain ⟨hlen, hcur⟩ := h
  cases op with
  | highlight sel =>
    simp only [applyHOp]
    by_cases hd : sel ∈ s.dom
    · rw [if_pos hd]
      exact ⟨by simp, by intro c hc; cases hc; rfl⟩
    · rw [if_neg hd]
      exact ⟨hlen, hcur⟩
  | fire sel =>
    simp only [applyHOp]
    by_cases hp : sel ∈ s.pending
    · rw [if_pos hp]
      refine ⟨le_trans (List.erase_sublist sel s.classes).length_le hlen, ?_⟩
      intro c hc
      exact absurd hc (by simp)
    · rw [if_neg hp]
      exact ⟨hlen, hcur⟩
  | clearHL =>
    simp only [applyHOp]
    cases hc : s.cur with
    | none => exact ⟨hlen, hcur⟩
    | some c =>
      refine ⟨le_trans (List.erase_sublist c s.classes).length_le hlen, ?_⟩
      intro c' hc'
      exact absurd hc' (by simp)

theorem foldl_applyHOp_inv (ops : List HOp) :
    ∀ s : HState, HInv s → HInv (ops.foldl applyHOp s) := by
  induction ops with
  | nil => intro s h; exact h
  | cons op ops ih =>
    intro s h
    exact ih (applyHOp s op) (applyHOp_inv s op h)

theorem runHOps_inv (dom : List String) (ops : List HOp) : HInv (runHOps dom ops) :=
  foldl_applyHOp_inv ops _ ⟨by simp, by intro c hc; cases hc⟩

/-- C8 (corrected).  At most one element bears the highlight class at
any instant, over every interleaving of highlight applications, expiry
timers and clears, and a second `highlightElement` always replaces the
first (it strips the class from every element before applying the new
one).  However "any active highlight is force-cleared when the call
ends" only holds for the highlight still tracked by `currentHighlight`:
a stale expiry timer of a superseded highlight resets
`currentHighlight` to null while the newer element keeps its class, and
the call-end `clearHighlight` then clears nothing, so that highlight
survives the end of the call until its own timer fires (see
`highlight_survives_call_end_cex`). -/
theorem highlight_invariant_amended :
    ∀ (dom : List String) (ops : List HOp),
      (runHOps dom ops).classes.length ≤ 1 ∧
      (∀ (s : HState) (sel : String), sel ∈ s.dom →
        (applyHOp s (HOp.highlight sel)).classes = [sel]) ∧
      (∀ c : String, (runHOps dom ops).cur = some c →
        (applyHOp (runHOps dom ops) HOp.clearHL).classes = [] ∧
        (applyHOp (runHOps dom ops) HOp.clearHL).cur = none) := by
  intro dom ops
  refine ⟨(runHOps_inv dom ops).1, ?_, ?_⟩
  · intro s sel hd
    simp only [applyHOp]
    rw [if_pos hd]
  · intro c hc
    have hcls : (runHOps dom ops).classes = [c] := (runHOps_inv dom ops).2 c hc
    simp only [applyHOp]
    rw [hc]
    constructor
    · show ((runHOps dom ops).classes.erase c) = []
      rw [hcls]
      exact List.erase_cons_head c []
    · rfl

/-- Witness for `highlight_invariant_amended` at a concrete page and
operation sequence. -/
theorem highlight_invariant_amended_witness :
    (runHOps (["#x"]) ([HOp.highlight ("#x")])).classes.length ≤ 1 ∧
    (applyHOp (runHOps (["#x"]) ([HOp.highlight ("#x")]))
      (HOp.highlight ("#x"))).classes = ["#x"] ∧
    (applyHOp (runHOps (["#x"]) ([HOp.highlight ("#x")])) HOp.clearHL).classes = [] :=
  ⟨(highlight_invariant_amended (["#x"]) ([HOp.highlight ("#x")])).1,
   (highlight_invariant_amended (["#x"]) ([HOp.highlight ("#x")])).2.1 _ ("#x") (by decide),
   ((highlight_invariant_amended (["#x"]) ([HOp.highlight ("#x")])).2.2 ("#x") (by decide)).1⟩

/-- C8 counterexample: highlight `#a`, then highlight `#b` (replacing
`#a`), then `#a`'s stale 5-second timer fires (resetting
`currentHighlight` to null while `#b` keeps its class), then the call
ends and `clearHighlight` runs — `#b` is still highlighted after the
call has ended, refuting "any active highlight is force-cleared when
the session/call ends". -/
theorem highlight_survives_call_end_cex :
    (runHOps (["#a", "#b"])
      ([HOp.highlight ("#a"), HOp.highlight ("#b"), HOp.fire ("#a"),
        HOp.clearHL])).classes = ["#b"] ∧
    (["#b"] : List String) ≠ ([] : List String) := by
  decide
